import Mathlib

/-!
Verification of the `coder_agent` response-interpretation pipelines
(`navigator_agent.py`, `search_agent.py`, `doc_agent.py`).

The three pipelines are shallowly embedded as Lean functions.  Python
values flowing through the pipelines (JSON-like data, dict entries,
collaborator results) are modelled by the inductive type `PyVal`.
External collaborators (`call_llm`, `deep_search`, the `json` library)
are opaque dependencies of the repository: they are passed in as
function/outcome parameters, so theorems quantify over every possible
collaborator behaviour, exactly as the spec's "for every collaborator
response" properties demand.  A Python exception is modelled as
`Except.error ()`: code points that can raise live in `Except Unit`,
and a `try/except` block in the source becomes an explicit `match` on
the `Except` value.
-/

/-- A Python value, as needed by the pipelines: `None`, booleans,
integers, strings, lists and string-keyed dicts (association lists;
keys produced by `json.loads` are unique, lookup takes the first
match). -/
inductive PyVal where
  | none : PyVal
  | bool : Bool → PyVal
  | int : Int → PyVal
  | str : String → PyVal
  | list : List PyVal → PyVal
  | dict : List (String × PyVal) → PyVal
  deriving Repr, BEq

namespace PyVal

/-- Python truthiness (`if x:`) for the modelled values. -/
def truthy : PyVal → Bool
  | .none => false
  | .bool b => b
  | .int n => decide (n ≠ 0)
  | .str s => decide (s ≠ "")
  | .list xs => !xs.isEmpty
  | .dict kvs => !kvs.isEmpty

/-- Model of `isinstance(v, dict)`. -/
def isDict : PyVal → Bool
  | .dict _ => true
  | _ => false

/-- Model of `isinstance(v, int)`.  In Python `bool` is a subclass of `int`,
so booleans pass this check. -/
def isIntLike : PyVal → Bool
  | .int _ => true
  | .bool _ => true
  | _ => false

/-- Model of `v is None`. -/
def isNone : PyVal → Bool
  | .none => true
  | _ => false

/-- The integer value of an `int`-like Python value
(`True` counts as 1, `False` as 0). -/
def intVal : PyVal → Int
  | .int n => n
  | .bool b => if b then 1 else 0
  | _ => 0

end PyVal

/-- Model of `d.get(k, default)` on a Python dict given as an association list. -/
def dictGetD (kvs : List (String × PyVal)) (k : String) (d : PyVal) : PyVal :=
  (List.lookup k kvs).getD d

/-- Model of `d.get(k)` (default `None`). -/
def dictGet (kvs : List (String × PyVal)) (k : String) : PyVal :=
  dictGetD kvs k PyVal.none

mutual

/-- Model of CPython `str(v)` as used when a `PyVal` is interpolated
into an f-string.  Exact quoting/repr details of containers are
abstracted (they only feed the opaque prompt text and no claim depends
on them); scalars are rendered as CPython renders them. -/
def pyStr : PyVal → String
  | .none => "None"
  | .bool true => "True"
  | .bool false => "False"
  | .int n => toString n
  | .str s => s
  | .list xs => "[" ++ String.intercalate ", " (pyStrList xs) ++ "]"
  | .dict kvs => "\x7b" ++ String.intercalate ", " (pyStrPairs kvs) ++ "\x7d"

def pyStrList : List PyVal → List String
  | [] => []
  | v :: vs => pyStr v :: pyStrList vs

def pyStrPairs : List (String × PyVal) → List String
  | [] => []
  | (k, v) :: kvs => (k ++ ": " ++ pyStr v) :: pyStrPairs kvs

end

/-- Python `str.isspace` characters relevant to `str.strip()`
(ASCII range, which is all the pipelines ever produce). -/
def pyIsSpace (c : Char) : Bool :=
  c == ' ' || c == '\t' || c == '\n' || c == '\r' || c == '\x0b' || c == '\x0c'

/-- Python `s.strip()` over a string modelled as a character list. -/
def pyStrip (cs : List Char) : List Char :=
  ((cs.dropWhile pyIsSpace).reverse.dropWhile pyIsSpace).reverse

/-- Python `s.find(c)` for a one-character needle: index of the first
occurrence, `-1` if absent. -/
def pyFind (cs : List Char) (c : Char) : Int :=
  match List.findIdx? (fun x => x == c) cs with
  | some i => (i : Int)
  | Option.none => -1

/-- Python `s.rfind(c)` for a one-character needle: index of the last
occurrence, `-1` if absent. -/
def pyRFind (cs : List Char) (c : Char) : Int :=
  match List.findIdx? (fun x => x == c) cs.reverse with
  | some i => (cs.length : Int) - 1 - (i : Int)
  | Option.none => -1

/-- The backtick character (fence marker constituent). -/
def backtick : Char := Char.ofNat 96

/-- The opening brace character. -/
def openBrace : Char := '\x7b'

/-- The closing brace character. -/
def closeBrace : Char := '\x7d'

/-!
## `navigator_agent.py`
-/

/-- The `while text.endswith("`"): text = text[:-1]` loop of
`_extract_json_block`, transcribed as structural recursion on the
string (one trailing backtick removed per iteration). -/
def stripTrailingBackticks (cs : List Char) : List Char :=
  if h : cs.getLast? = some backtick then
    stripTrailingBackticks cs.dropLast
  else cs
termination_by cs.length
decreasing_by
  cases cs with
  | nil => simp at h
  | cons a l => simp [List.length_dropLast]

/-- Function `_extract_json_block` from `navigator_agent.py`, over character
lists.  Best-effort extraction of a JSON object from a raw LLM string:
strip a leading markdown fence line and trailing backticks, then take
the substring from the first opening brace to the last closing
brace (inclusive) when the latter follows the former. -/
def extractJsonBlockCore (raw : List Char) : List Char :=
  if raw.isEmpty then []
  else
    let text := pyStrip raw
    let text :=
      if [backtick, backtick, backtick].isPrefixOf text then
        let text :=
          let firstNewline := pyFind text '\n'
          if firstNewline ≠ -1 then text.drop (firstNewline.toNat + 1) else text
        let text := stripTrailingBackticks text
        pyStrip text
      else text
    let start := pyFind text openBrace
    let stop := pyRFind text closeBrace
    if start ≠ -1 ∧ stop ≠ -1 ∧ start < stop then
      (text.drop start.toNat).take (stop.toNat + 1 - start.toNat)
    else text

/-- Wrapper for `_extract_json_block` on `String`s. -/
def _extract_json_block (raw : String) : String :=
  String.mk (extractJsonBlockCore raw.data)

/-- The planning prompt built by `plan_code_generation`. -/
def planning_prompt (requirements project_type : String) : String :=
  "You are a senior software architect helping another agent generate code.\n"
    ++ "Given a user requirement and a project type, break the work into a small set "
    ++ "of concrete code components and KB search hints.\n\n"
    ++ "Return JSON with this shape ONLY (no explanations, no markdown, no extra text):\n"
    ++ "\x7b\n"
    ++ "  \"components\": [\n"
    ++ "    \x7b\"name\": \"...\", \"description\": \"...\", \"priority\": 1\x7d\n"
    ++ "  ],\n"
    ++ "  \"search_queries\": [\"...\", \"...\"]\n"
    ++ "\x7d\n\n"
    ++ "PROJECT_TYPE: " ++ project_type ++ "\n"
    ++ "REQUIREMENTS:\n" ++ requirements ++ "\n"

/-- The plan returned by `plan_code_generation`: a dict that always
has exactly the keys `components` and `search_queries`, so it is
modelled as a two-field structure. -/
structure Plan where
  components : List PyVal
  search_queries : List PyVal
  deriving Repr, BEq

/-- The "default safe plan" initialised by `plan_code_generation`. -/
def defaultPlan (requirements : String) : Plan :=
  { components := [PyVal.dict [("name", PyVal.str "main_module"),
                               ("description", PyVal.str requirements),
                               ("priority", PyVal.int 1)]],
    search_queries := [PyVal.str requirements] }

/-- Model of `if isinstance(x, list) and x: plan[k] = x` — adopt a parsed field
when it is a non-empty list, otherwise keep the default. -/
def adoptList (v : PyVal) (dflt : List PyVal) : List PyVal :=
  match v with
  | .list xs => if xs.isEmpty then dflt else xs
  | _ => dflt

/-- Function `plan_code_generation` from `navigator_agent.py`.  The opaque
text-generation collaborator `call_llm` is the parameter `llm`
(`Except.error` models it raising), and `json.loads` is the parameter
`parse` (`Except.error` models a parse exception).  Both exceptions
are caught by the source's `try/except` blocks, so the pipeline
itself returns a `Plan` directly. -/
def plan_code_generation (llm : String → Except Unit String)
    (parse : String → Except Unit PyVal)
    (requirements project_type : String) : Plan :=
  let raw :=
    match llm (planning_prompt requirements project_type) with
    | .ok s => s
    | .error _ => ""
  let plan := defaultPlan requirements
  if raw = "" then plan
  else
    match parse (_extract_json_block raw) with
    | .error _ => plan
    | .ok parsed =>
      match parsed with
      | .dict kvs =>
        { components := adoptList (dictGet kvs "components") plan.components,
          search_queries := adoptList (dictGet kvs "search_queries") plan.search_queries }
      | _ => plan

/-!
## `search_agent.py`
-/

/-- Index validation in `find_function_exemplars`: read
`chosen_section_index` from the `deep_search` result and fall back to
`0` when the result is not a dict, the key is missing or `None`, the
value is not an `int`, or it is out of `[0, n)`. -/
def resolve_index (result : PyVal) (n : Nat) : Nat :=
  match result with
  | .dict kvs =>
    let idx := dictGet kvs "chosen_section_index"
    if idx.isNone then 0
    else if !idx.isIntLike then 0
    else if 0 ≤ idx.intVal ∧ idx.intVal < (n : Int) then idx.intVal.toNat
    else 0
  | _ => 0

/-- Function `_build_exemplar` from `find_function_exemplars`: read the
section record at `section_idx` and project the five exemplar fields.
Python raises `AttributeError` (`Except.error`) when the entry is not
a dict, since only dicts have `.get`. -/
def _build_exemplar (code_sections : List PyVal) (section_idx : Nat) :
    Except Unit PyVal :=
  match code_sections.getD section_idx PyVal.none with
  | .dict kvs =>
    .ok (.dict [("index", .int (section_idx : Int)),
                ("artifact_name", dictGet kvs "artifact_name"),
                ("document_name", dictGet kvs "document_name"),
                ("section_name", dictGet kvs "section_name"),
                ("description", dictGet kvs "description")])
  | _ => .error ()

/-- The exemplar value `_build_exemplar` produces at an index whose
entry is a dict (total companion of `_build_exemplar`, used to state
theorems). -/
def exemplar_of (code_sections : List PyVal) (section_idx : Nat) : PyVal :=
  let kvs :=
    match code_sections.getD section_idx PyVal.none with
    | .dict kvs => kvs
    | _ => []
  .dict [("index", .int (section_idx : Int)),
         ("artifact_name", dictGet kvs "artifact_name"),
         ("document_name", dictGet kvs "document_name"),
         ("section_name", dictGet kvs "section_name"),
         ("description", dictGet kvs "description")]

/-- The neighbour loop of `find_function_exemplars`:
`for offset in (-1, 1, -2, 2)`, stop when `len(exemplars) >=
max_exemplars`, append in-bounds neighbours of `idx`. -/
def add_neighbors (code_sections : List PyVal) (idx : Int) (max_exemplars : Int) :
    List Int → List PyVal → Except Unit (List PyVal)
  | [], exemplars => .ok exemplars
  | offset :: rest, exemplars =>
    if max_exemplars ≤ (exemplars.length : Int) then .ok exemplars
    else
      let neighbor := idx + offset
      if 0 ≤ neighbor ∧ neighbor < (code_sections.length : Int) then
        match _build_exemplar code_sections neighbor.toNat with
        | .error e => .error e
        | .ok ex => add_neighbors code_sections idx max_exemplars rest (exemplars ++ [ex])
      else add_neighbors code_sections idx max_exemplars rest exemplars

/-- Function `find_function_exemplars` from `search_agent.py`.  The
ranking collaborator `deep_search` is opaque; `ds` is the outcome it
produces for this call (`Except.error ()` models it raising — the
source wraps it in no `try`, so that exception propagates).  The
`requirement` argument only flows into the opaque collaborator call. -/
def find_function_exemplars (ds : Except Unit PyVal) (requirement : String)
    (code_sections : List PyVal) (max_exemplars : Int) :
    Except Unit (List PyVal) :=
  if code_sections.isEmpty then .ok []
  else
    match ds with
    | .error e => .error e
    | .ok result =>
      let idx := resolve_index result code_sections.length
      match _build_exemplar code_sections idx with
      | .error e => .error e
      | .ok primary =>
        add_neighbors code_sections (idx : Int) max_exemplars [-1, 1, -2, 2] [primary]

/-!
## `doc_agent.py`
-/

/-- The all-empty documentation bundle returned by
`generate_documentation` on its fallback paths. -/
def emptyBundle : List (String × PyVal) :=
  [("readme", PyVal.str ""),
   ("api_docs", PyVal.str ""),
   ("inline_docs", PyVal.str ""),
   ("usage_examples", PyVal.str ""),
   ("installation_instructions", PyVal.str "")]

/-- One line of `exemplars_text` in `generate_documentation`:
`f"# Exemplar: {ex.get('section_name', '')}\n{ex.get('description', '')}\n"`.
Python raises `AttributeError` (`Except.error`) when `ex` is not a
dict, before the collaborator is ever invoked. -/
def exemplar_line (ex : PyVal) : Except Unit String :=
  match ex with
  | .dict kvs =>
    .ok ("# Exemplar: " ++ pyStr (dictGetD kvs "section_name" (.str "")) ++ "\n"
          ++ pyStr (dictGetD kvs "description" (.str "")) ++ "\n")
  | _ => .error ()

/-- The `exemplars_text` construction of `generate_documentation`:
empty when `exemplars` is falsy, otherwise the newline-join of the
rendered first three exemplars. -/
def exemplars_text (exemplars : List PyVal) : Except Unit String :=
  if exemplars.isEmpty then .ok ""
  else do
    let lines ← (exemplars.take 3).mapM exemplar_line
    pure (String.intercalate "\n" lines)

/-- The `tribal_summary` construction of `generate_documentation`:
empty when `tribal_kb` is falsy, otherwise `json.dumps(tribal_kb,
indent=2)[:2000]`, falling back to `str(tribal_kb)[:2000]` when the
serializer raises.  `dumps` is the opaque `json.dumps` collaborator. -/
def tribal_summary (dumps : PyVal → Except Unit String) (tribal_kb : PyVal) : String :=
  if tribal_kb.truthy then
    match dumps tribal_kb with
    | .ok s => s.take 2000
    | .error _ => (pyStr tribal_kb).take 2000
  else ""

/-- The prompt assembled by `generate_documentation` from its parts
(`"\n".join(prompt_parts)` with the optional code / exemplar /
tribal-knowledge segments). -/
def doc_prompt (project_type requirement code exemplarsText tribalSummary : String) :
    String :=
  String.intercalate "\n"
    (["You are a technical writer. Generate comprehensive documentation.",
      "",
      "PROJECT_TYPE: " ++ project_type,
      "",
      "REQUIREMENT:",
      requirement]
     ++ (if code ≠ "" then ["", "CODE TO DOCUMENT:", code] else [])
     ++ (if exemplarsText ≠ "" then ["", "DOCUMENTATION EXEMPLARS:", exemplarsText] else [])
     ++ (if tribalSummary ≠ "" then ["", "TRIBAL KNOWLEDGE:", tribalSummary] else [])
     ++ ["",
         "Generate documentation including:",
         "- README with setup and usage",
         "- API documentation",
         "- Inline code comments",
         "- Usage examples",
         "",
         "Return JSON with this shape ONLY:",
         "\x7b",
         "  \"readme\": \"...\",",
         "  \"api_docs\": \"...\",",
         "  \"inline_docs\": \"...\",",
         "  \"usage_examples\": \"...\",",
         "  \"installation_instructions\": \"...\"",
         "\x7d"])

/-- The JSON-block extraction of `generate_documentation`:
`start = raw.find("{")`, `end = raw.rfind("}")`, and the inclusive
slice `raw[start:end+1]` when both were found (note: unlike
`_extract_json_block`, no fence stripping and no `end > start`
check). -/
def docJsonBlock (raw : String) : Option String :=
  let start := pyFind raw.data openBrace
  let stop := pyRFind raw.data closeBrace
  if start ≠ -1 ∧ stop ≠ -1 then
    some (String.mk ((raw.data.drop start.toNat).take (stop.toNat + 1 - start.toNat)))
  else Option.none

/-- The response-interpretation tail of `generate_documentation`:
parse the extracted block and return the parsed mapping as-is; any
parse failure, non-dict parse result, or missing brace falls through
to the all-empty bundle. -/
def doc_from_raw (parse : String → Except Unit PyVal) (raw : String) :
    List (String × PyVal) :=
  match docJsonBlock raw with
  | some jb =>
    match parse jb with
    | .ok (.dict kvs) => kvs
    | _ => emptyBundle
  | Option.none => emptyBundle

/-- Function `generate_documentation` from `doc_agent.py`.  `llm` is
the opaque `call_llm` collaborator (an exception from it yields the
all-empty bundle), `parse` is `json.loads`, `dumps` is `json.dumps`.
The result is the returned dict; `Except.error ()` models the
`AttributeError` escaping when an exemplar element is not a mapping
(that happens while building the prompt, outside any `try`). -/
def generate_documentation (llm : String → Except Unit String)
    (parse : String → Except Unit PyVal) (dumps : PyVal → Except Unit String)
    (requirement project_type : String) (code : String)
    (exemplars : List PyVal) (tribal_kb : PyVal) :
    Except Unit (List (String × PyVal)) := do
  let exText ← exemplars_text exemplars
  let tribalSummary := tribal_summary dumps tribal_kb
  let prompt := doc_prompt project_type requirement code exText tribalSummary
  match llm prompt with
  | .error _ => .ok emptyBundle
  | .ok raw => .ok (doc_from_raw parse raw)

/-!
## Specification-side definitions

These definitions follow the wording of the spec / claims (not the
source) and are compared against the embedded code by refinement
theorems.
-/

/-- Per the spec's Payload Extractor (§4.1): "strip the first line
(language tag)" — the text after the first newline; when the text has
no newline there is no complete language-tag line to remove and the
text is kept. -/
def dropFirstLineSpec (cs : List Char) : List Char :=
  let rest := cs.dropWhile (fun c => !(c == '\n'))
  if rest.isEmpty then cs else rest.tail

/-- Per the spec (§4.1): strip "any trailing fence markers". -/
def stripTrailingFenceSpec (cs : List Char) : List Char :=
  (cs.reverse.dropWhile (fun c => c == backtick)).reverse

/-- Per the spec (§4.1): "locate the first `{`". -/
def firstBrace (cs : List Char) : Option Nat :=
  List.findIdx? (fun c => c == openBrace) cs

/-- Per the spec (§4.1): "locate ... the last `}`". -/
def lastBrace (cs : List Char) : Option Nat :=
  match List.findIdx? (fun c => c == closeBrace) cs.reverse with
  | some i => some (cs.length - 1 - i)
  | Option.none => Option.none

/-- Per the spec (§4.1): if a first `{` and a last `}` both exist and
the `}` follows the `{`, the inclusive substring between them,
otherwise the text unchanged. -/
def braceSliceSpec (t : List Char) : List Char :=
  match firstBrace t, lastBrace t with
  | some i, some j => if i < j then (t.drop i).take (j + 1 - i) else t
  | _, _ => t

/-- The Payload Extractor exactly as the spec (§4.1) and claim C5
describe it: empty input gives the empty string; if the (trimmed)
text begins with a fence marker, strip the first line and any
trailing fence markers and trim; if a first `{` and a last `}` exist
with the `}` after the `{`, return the inclusive substring between
them; otherwise return the trimmed text unchanged. -/
def extractSpec (raw : List Char) : List Char :=
  if raw = [] then []
  else
    let t := pyStrip raw
    let t :=
      if [backtick, backtick, backtick].isPrefixOf t then
        pyStrip (stripTrailingFenceSpec (dropFirstLineSpec t))
      else t
    braceSliceSpec t

/-- Per the spec (§4.4) and claim C6: from the chosen index, visit
offsets `-1, +1, -2, +2` in strict order, keep in-bounds neighbours,
and stop once `maxExemplars` exemplars are collected (the chosen one
counts towards `collected`). -/
def claimNeighbors (idx len maxExemplars : Int) : List Int → Int → List Int
  | [], _ => []
  | o :: os, collected =>
    if maxExemplars ≤ collected then []
    else if 0 ≤ idx + o ∧ idx + o < len then
      (idx + o) :: claimNeighbors idx len maxExemplars os (collected + 1)
    else claimNeighbors idx len maxExemplars os collected

/-- Per claim C6: the source indices of the returned exemplars — the
chosen index first, then the accepted neighbours in offset order. -/
def claimIndices (idx len maxExemplars : Int) : List Int :=
  idx :: claimNeighbors idx len maxExemplars [-1, 1, -2, 2] 1

/-- Per claim C7: the ranking result is unusable — not a mapping,
`chosen_section_index` missing or `None`, not an integer, or outside
`[0, n)`. -/
def invalid_choice (result : PyVal) (n : Nat) : Bool :=
  match result with
  | .dict kvs =>
    let idx := dictGet kvs "chosen_section_index"
    idx.isNone || !idx.isIntLike ||
      !(decide (0 ≤ idx.intVal) && decide (idx.intVal < (n : Int)))
  | _ => true

/-- Per the spec (§3) and claim C3: a structurally valid Component
record — a mapping with a string `name`, a string `description` and
an integer `priority`. -/
def isValidComponent : PyVal → Bool
  | .dict kvs =>
    (match List.lookup "name" kvs with
     | some (.str _) => true
     | _ => false) &&
    (match List.lookup "description" kvs with
     | some (.str _) => true
     | _ => false) &&
    (match List.lookup "priority" kvs with
     | some (.int _) => true
     | _ => false)
  | _ => false

/-- Per claim C8 (and spec §4.2): a field value that the plan
pipeline does **not** adopt — absent (`None` via `get`), not a list,
or an empty list — so the default is kept. -/
def notAdoptable : PyVal → Bool
  | .list xs => xs.isEmpty
  | _ => true

/-!
## Concrete fixtures for witnesses and counterexamples

The stub collaborators below agree with the real ones on every string
they are actually applied to: each `parse...` stub maps exactly the
JSON text it is given to the value CPython `json.loads` produces for
it, and fails on everything else.
-/

/-- Five code sections, as dicts carrying a `section_name`. -/
def secs5 : List PyVal :=
  [PyVal.dict [("section_name", PyVal.str "s0")],
   PyVal.dict [("section_name", PyVal.str "s1")],
   PyVal.dict [("section_name", PyVal.str "s2")],
   PyVal.dict [("section_name", PyVal.str "s3")],
   PyVal.dict [("section_name", PyVal.str "s4")]]

/-- A collaborator response whose `components` list holds an integer
instead of a Component record. -/
def rawBadComponents : String := "\x7b\"components\": [5]\x7d"

/-- Stub for `json.loads` agreeing with CPython on
`rawBadComponents`. -/
def parseBadComponents : String → Except Unit PyVal :=
  fun s => if s = rawBadComponents then
    .ok (.dict [("components", .list [.int 5])]) else .error ()

/-- A collaborator response with a valid one-component list and an
empty `search_queries` list. -/
def rawPartialPlan : String :=
  "\x7b\"components\": [\x7b\"name\": \"m\", \"description\": \"d\", \"priority\": 2\x7d], \"search_queries\": []\x7d"

/-- The value CPython `json.loads` produces for `rawPartialPlan`. -/
def parsedPartialPlan : List (String × PyVal) :=
  [("components", PyVal.list [PyVal.dict
      [("name", PyVal.str "m"), ("description", PyVal.str "d"),
       ("priority", PyVal.int 2)]]),
   ("search_queries", PyVal.list [])]

/-- Stub for `json.loads` agreeing with CPython on `rawPartialPlan`. -/
def parsePartialPlan : String → Except Unit PyVal :=
  fun s => if s = rawPartialPlan then .ok (.dict parsedPartialPlan) else .error ()

/-- A collaborator response that is an empty JSON object. -/
def rawEmptyObject : String := "\x7b\x7d"

/-- Stub for `json.loads` agreeing with CPython on `rawEmptyObject`. -/
def parseEmptyObject : String → Except Unit PyVal :=
  fun s => if s = rawEmptyObject then .ok (.dict []) else .error ()

/-!
## Equivalence of the embedded extractor with the spec's description
-/

theorem stripTrailingBackticks_eq_spec (cs : List Char) :
    stripTrailingBackticks cs = stripTrailingFenceSpec cs := by
  induction cs using List.reverseRecOn with
  | nil =>
    rw [stripTrailingBackticks]
    simp [stripTrailingFenceSpec]
  | append_singleton xs a ih =>
    rw [stripTrailingBackticks]
    by_cases ha : a = backtick
    · subst ha
      rw [dif_pos (by simp)]
      rw [List.dropLast_concat, ih]
      simp [stripTrailingFenceSpec, List.reverse_append]
    · rw [dif_neg (by simp [List.getLast?_concat, ha])]
      simp [stripTrailingFenceSpec, List.reverse_append, ha]

theorem drop_succ_of_findIdx? {α} (p : α → Bool) :
    ∀ (cs : List α) (i : Nat), List.findIdx? p cs = some i →
      cs.drop (i + 1) = (cs.dropWhile (fun c => !p c)).tail
  | [], i, h => by simp at h
  | c :: l, i, h => by
    rw [List.findIdx?_cons] at h
    by_cases hc : p c
    · rw [if_pos hc] at h
      cases h
      simp [List.dropWhile_cons, hc]
    · rw [if_neg hc] at h
      rw [show (0 : Nat) + 1 = 0 + 1 from rfl, List.findIdx?_start_succ] at h
      obtain ⟨j, hj, rfl⟩ := Option.map_eq_some'.mp h
      simp only [List.dropWhile_cons, hc, Bool.not_false, if_true]
      simpa using drop_succ_of_findIdx? p l j hj

theorem dropWhile_ne_nil_of_findIdx? {α} (p : α → Bool) {cs : List α} {i : Nat}
    (h : List.findIdx? p cs = some i) :
    (cs.dropWhile (fun c => !p c)).isEmpty = false := by
  cases hd : cs.dropWhile (fun c => !p c) with
  | cons x xs => rfl
  | nil =>
    exfalso
    have hall := List.dropWhile_eq_nil_iff.mp hd
    have hnone : List.findIdx? p cs = Option.none := by
      rw [List.findIdx?_eq_none_iff]
      intro x hx
      simpa using hall x hx
    rw [hnone] at h
    cases h

theorem firstline_eq_spec (cs : List Char) :
    (if pyFind cs '\n' ≠ -1 then cs.drop ((pyFind cs '\n').toNat + 1) else cs)
      = dropFirstLineSpec cs := by
  unfold pyFind dropFirstLineSpec
  cases h : List.findIdx? (fun x => x == '\n') cs with
  | none =>
    rw [if_neg (by simp)]
    have hall : ∀ x ∈ cs, (x == '\n') = false := List.findIdx?_eq_none_iff.mp h
    have hnil : cs.dropWhile (fun c => !(c == '\n')) = [] := by
      rw [List.dropWhile_eq_nil_iff]
      intro x hx
      simp [hall x hx]
    simp [hnil]
  | some i =>
    dsimp only
    rw [if_pos (by omega)]
    have hne := dropWhile_ne_nil_of_findIdx? (fun x => x == '\n') h
    have hdrop := drop_succ_of_findIdx? (fun x => x == '\n') cs i h
    simp only [Int.toNat_ofNat, hne, Bool.false_eq_true, if_false]
    simpa using hdrop

theorem brace_slice_eq (t : List Char) :
    braceSliceSpec t
    = (if pyFind t openBrace ≠ -1 ∧ pyRFind t closeBrace ≠ -1 ∧
          pyFind t openBrace < pyRFind t closeBrace then
        (t.drop (pyFind t openBrace).toNat).take
          ((pyRFind t closeBrace).toNat + 1 - (pyFind t openBrace).toNat)
       else t) := by
  unfold braceSliceSpec firstBrace lastBrace pyFind pyRFind
  cases h1 : List.findIdx? (fun c => c == openBrace) t with
  | none =>
    cases h2 : List.findIdx? (fun c => c == closeBrace) t.reverse with
    | none => simp
    | some j => simp
  | some i =>
    cases h2 : List.findIdx? (fun c => c == closeBrace) t.reverse with
    | none => simp
    | some j =>
      dsimp only
      have hj : j < t.length := by
        have := (List.findIdx?_eq_some_iff_findIdx_eq.mp h2).1
        simpa using this
      have e1 : ((t.length : Int) - 1 - (j : Int)).toNat = t.length - 1 - j := by omega
      by_cases hij : i < t.length - 1 - j
      · rw [if_pos hij, if_pos (by refine ⟨by omega, by omega, by omega⟩)]
        rw [Int.toNat_ofNat, e1]
      · rw [if_neg hij, if_neg (by intro hcon; exact hij (by omega))]

theorem extractSpec_eq_core (raw : List Char) :
    extractSpec raw = extractJsonBlockCore raw := by
  unfold extractSpec extractJsonBlockCore
  by_cases h0 : raw = []
  · subst h0; simp [braceSliceSpec, firstBrace, lastBrace]
  · rw [if_neg h0, if_neg (by simpa using h0)]
    simp only [brace_slice_eq, firstline_eq_spec, stripTrailingBackticks_eq_spec]


/-!
## Helper lemmas: exemplar selector
-/

theorem resolve_index_lt (res : PyVal) {n : Nat} (hn : 0 < n) :
    resolve_index res n < n := by
  unfold resolve_index
  cases res with
  | dict kvs =>
    dsimp only
    split
    · exact hn
    · split
      · exact hn
      · split
        · next h =>
          have := h.2
          omega
        · exact hn
  | none => exact hn
  | bool b => exact hn
  | int v => exact hn
  | str s => exact hn
  | list xs => exact hn

theorem isDict_getD {cs : List PyVal} (hdict : ∀ s ∈ cs, s.isDict = true)
    {j : Nat} (hj : j < cs.length) :
    (cs.getD j PyVal.none).isDict = true := by
  rw [List.getD_eq_getElem cs PyVal.none hj]
  exact hdict _ (List.getElem_mem hj)

theorem build_exemplar_ok {cs : List PyVal} {j : Nat}
    (h : (cs.getD j PyVal.none).isDict = true) :
    _build_exemplar cs j = .ok (exemplar_of cs j) := by
  unfold _build_exemplar exemplar_of
  cases hentry : cs.getD j PyVal.none with
  | dict kvs => rfl
  | none => rw [hentry] at h; simp [PyVal.isDict] at h
  | bool b => rw [hentry] at h; simp [PyVal.isDict] at h
  | int v => rw [hentry] at h; simp [PyVal.isDict] at h
  | str s => rw [hentry] at h; simp [PyVal.isDict] at h
  | list xs => rw [hentry] at h; simp [PyVal.isDict] at h

theorem invalid_choice_resolve {res : PyVal} {n : Nat}
    (h : invalid_choice res n = true) : resolve_index res n = 0 := by
  cases res with
  | dict kvs =>
    simp only [invalid_choice, Bool.or_eq_true] at h
    simp only [resolve_index]
    by_cases h0 : (dictGet kvs "chosen_section_index").isNone = true
    · rw [if_pos h0]
    · rw [if_neg h0]
      by_cases h1 : (!(dictGet kvs "chosen_section_index").isIntLike) = true
      · rw [if_pos h1]
      · rw [if_neg h1]
        have hr : ¬(0 ≤ (dictGet kvs "chosen_section_index").intVal ∧
            (dictGet kvs "chosen_section_index").intVal < (n : Int)) := by
          rcases h with (h | h) | h
          · exact absurd h h0
          · exact absurd h h1
          · intro hc
            rw [decide_eq_true hc.1, decide_eq_true hc.2] at h
            simp at h
        rw [if_neg hr]
  | none => rfl
  | bool b => rfl
  | int v => rfl
  | str s => rfl
  | list xs => rfl

theorem add_neighbors_eq_claim (cs : List PyVal) (idx m : Int)
    (hdict : ∀ s ∈ cs, s.isDict = true) :
    ∀ (offs : List Int) (acc : List PyVal),
      add_neighbors cs idx m offs acc
        = .ok (acc ++ (claimNeighbors idx (cs.length : Int) m offs
            (acc.length : Int)).map (fun j => exemplar_of cs j.toNat))
  | [], acc => by simp [add_neighbors, claimNeighbors]
  | o :: os, acc => by
    rw [add_neighbors, claimNeighbors]
    by_cases hstop : m ≤ (acc.length : Int)
    · rw [if_pos hstop, if_pos hstop]
      simp
    · rw [if_neg hstop, if_neg hstop]
      by_cases hb : 0 ≤ idx + o ∧ idx + o < (cs.length : Int)
      · rw [if_pos hb, if_pos hb]
        have hlt : (idx + o).toNat < cs.length := by omega
        rw [build_exemplar_ok (isDict_getD hdict hlt)]
        dsimp only
        rw [add_neighbors_eq_claim cs idx m hdict os (acc ++ [exemplar_of cs (idx + o).toNat])]
        simp [List.append_assoc]
      · rw [if_neg hb, if_neg hb]
        exact add_neighbors_eq_claim cs idx m hdict os acc

theorem claimNeighbors_length_bound (idx len m : Int) :
    ∀ (offs : List Int) (c : Int),
      ((claimNeighbors idx len m offs c).length : Int) ≤ max 0 (m - c)
  | [], c => by simp [claimNeighbors]
  | o :: os, c => by
    rw [claimNeighbors]
    by_cases hstop : m ≤ c
    · rw [if_pos hstop]; simp
    · rw [if_neg hstop]
      by_cases hb : 0 ≤ idx + o ∧ idx + o < len
      · rw [if_pos hb]
        have := claimNeighbors_length_bound idx len m os (c + 1)
        simp only [List.length_cons]
        push_cast
        omega
      · rw [if_neg hb]
        have := claimNeighbors_length_bound idx len m os c
        omega

theorem find_function_exemplars_char (res : PyVal) (req : String)
    (cs : List PyVal) (m : Int) (hne : cs.isEmpty = false)
    (hdict : ∀ s ∈ cs, s.isDict = true) :
    find_function_exemplars (.ok res) req cs m
      = .ok ((claimIndices ((resolve_index res cs.length : Nat) : Int)
          (cs.length : Int) m).map (fun j => exemplar_of cs j.toNat)) := by
  unfold find_function_exemplars
  rw [hne]
  dsimp only
  have hn : 0 < cs.length := by
    cases cs with
    | nil => simp at hne
    | cons a l => simp
  have hk : resolve_index res cs.length < cs.length := resolve_index_lt res hn
  rw [build_exemplar_ok (isDict_getD hdict hk)]
  dsimp only
  rw [add_neighbors_eq_claim cs _ m hdict]
  unfold claimIndices
  simp

theorem resolve_index_of_valid {v : Int} {n : Nat} (h0 : 0 ≤ v)
    (hv : v < (n : Int)) :
    resolve_index (.dict [("chosen_section_index", .int v)]) n = v.toNat := by
  have hget : dictGet [("chosen_section_index", PyVal.int v)] "chosen_section_index"
      = PyVal.int v := by
    simp [dictGet, dictGetD, List.lookup]
  simp only [resolve_index, hget]
  rw [if_neg (by simp [PyVal.isNone]),
    if_neg (by simp [PyVal.isIntLike]), if_pos (by exact ⟨h0, hv⟩)]
  rfl

/-!
## Helper lemmas: plan pipeline
-/

theorem adoptList_ne_nil {v : PyVal} {d : List PyVal} (hd : d ≠ []) :
    adoptList v d ≠ [] := by
  cases v with
  | list xs =>
    simp only [adoptList]
    split
    · exact hd
    · next h =>
      intro hc
      rw [hc] at h
      simp at h
  | none => exact hd
  | bool b => exact hd
  | int n => exact hd
  | str s => exact hd
  | dict kvs => exact hd

theorem adoptList_of_notAdoptable {v : PyVal} {d : List PyVal}
    (h : notAdoptable v = true) : adoptList v d = d := by
  cases v with
  | list xs =>
    simp only [notAdoptable] at h
    simp [adoptList, h]
  | none => rfl
  | bool b => rfl
  | int n => rfl
  | str s => rfl
  | dict kvs => rfl

theorem adoptList_of_cons {x : PyVal} {xs : List PyVal} {d : List PyVal} :
    adoptList (.list (x :: xs)) d = x :: xs := by
  simp [adoptList]

theorem plan_eq_of_error {llm : String → Except Unit String}
    {parse : String → Except Unit PyVal} {req pt : String}
    (h : llm (planning_prompt req pt) = .error ()) :
    plan_code_generation llm parse req pt = defaultPlan req := by
  unfold plan_code_generation
  rw [h]
  rfl

theorem plan_eq_of_ok {llm : String → Except Unit String}
    {parse : String → Except Unit PyVal} {req pt raw : String}
    (h : llm (planning_prompt req pt) = .ok raw) :
    plan_code_generation llm parse req pt =
      (if raw = "" then defaultPlan req
       else
        match parse (_extract_json_block raw) with
        | .error _ => defaultPlan req
        | .ok parsed =>
          match parsed with
          | .dict kvs =>
            { components := adoptList (dictGet kvs "components") (defaultPlan req).components,
              search_queries :=
                adoptList (dictGet kvs "search_queries") (defaultPlan req).search_queries }
          | _ => defaultPlan req) := by
  unfold plan_code_generation
  rw [h]

theorem plan_char {llm : String → Except Unit String}
    {parse : String → Except Unit PyVal} {req pt raw : String}
    {kvs : List (String × PyVal)}
    (h1 : llm (planning_prompt req pt) = .ok raw) (h2 : raw ≠ "")
    (h3 : parse (_extract_json_block raw) = .ok (.dict kvs)) :
    plan_code_generation llm parse req pt =
      { components := adoptList (dictGet kvs "components") (defaultPlan req).components,
        search_queries :=
          adoptList (dictGet kvs "search_queries") (defaultPlan req).search_queries } := by
  rw [plan_eq_of_ok h1, if_neg h2, h3]

theorem plan_shape (llm : String → Except Unit String)
    (parse : String → Except Unit PyVal) (req pt : String) :
    (plan_code_generation llm parse req pt).components ≠ [] ∧
    (plan_code_generation llm parse req pt).search_queries ≠ [] := by
  cases hllm : llm (planning_prompt req pt) with
  | error e =>
    cases e
    rw [plan_eq_of_error hllm]
    simp [defaultPlan]
  | ok raw =>
    rw [plan_eq_of_ok hllm]
    by_cases h2 : raw = ""
    · simp [h2, defaultPlan]
    · rw [if_neg h2]
      cases hp : parse (_extract_json_block raw) with
      | error e => simp [defaultPlan]
      | ok parsed =>
        cases parsed with
        | dict kvs =>
          refine ⟨adoptList_ne_nil (by simp [defaultPlan]),
            adoptList_ne_nil (by simp [defaultPlan])⟩
        | none => simp [defaultPlan]
        | bool b => simp [defaultPlan]
        | int n => simp [defaultPlan]
        | str s => simp [defaultPlan]
        | list xs => simp [defaultPlan]

/-!
## Helper lemmas: documentation pipeline
-/

theorem mapM_exemplar_line_ok :
    ∀ (l : List PyVal), (∀ x ∈ l, x.isDict = true) →
      ∃ ss, l.mapM exemplar_line = Except.ok ss
  | [], _ => ⟨[], rfl⟩
  | x :: xs, h => by
    obtain ⟨ss, hss⟩ := mapM_exemplar_line_ok xs (fun y hy => h y (by simp [hy]))
    have hx := h x (by simp)
    cases x with
    | dict kvs =>
      refine ⟨("# Exemplar: " ++ pyStr (dictGetD kvs "section_name" (.str "")) ++ "\n"
          ++ pyStr (dictGetD kvs "description" (.str "")) ++ "\n") :: ss, ?_⟩
      rw [List.mapM_cons]
      rw [show exemplar_line (PyVal.dict kvs)
          = .ok ("# Exemplar: " ++ pyStr (dictGetD kvs "section_name" (.str "")) ++ "\n"
              ++ pyStr (dictGetD kvs "description" (.str "")) ++ "\n") from rfl, hss]
      rfl
    | none => simp [PyVal.isDict] at hx
    | bool b => simp [PyVal.isDict] at hx
    | int n => simp [PyVal.isDict] at hx
    | str s => simp [PyVal.isDict] at hx
    | list ys => simp [PyVal.isDict] at hx

theorem exemplars_text_ok {exemplars : List PyVal}
    (hex : ∀ x ∈ exemplars.take 3, x.isDict = true) :
    ∃ s, exemplars_text exemplars = .ok s := by
  unfold exemplars_text
  by_cases he : exemplars.isEmpty
  · exact ⟨"", by rw [if_pos he]⟩
  · rw [if_neg he]
    obtain ⟨ss, hss⟩ := mapM_exemplar_line_ok (exemplars.take 3) hex
    exact ⟨String.intercalate "\n" ss, by rw [hss]; rfl⟩

theorem generate_documentation_char {llm : String → Except Unit String}
    {parse : String → Except Unit PyVal} {dumps : PyVal → Except Unit String}
    {req pt code : String} {exemplars : List PyVal} {kb : PyVal}
    (hex : ∀ x ∈ exemplars.take 3, x.isDict = true) :
    ∃ exText, exemplars_text exemplars = .ok exText ∧
      generate_documentation llm parse dumps req pt code exemplars kb =
        (match llm (doc_prompt pt req code exText (tribal_summary dumps kb)) with
         | .error _ => .ok emptyBundle
         | .ok raw => .ok (doc_from_raw parse raw)) := by
  obtain ⟨exText, hex2⟩ := exemplars_text_ok hex
  refine ⟨exText, hex2, ?_⟩
  unfold generate_documentation
  rw [hex2]
  rfl

/-!
## Claim theorems
-/

/-- C5: for every input string the Payload Extractor is a pure
function that returns the empty string on empty input, strips the
fence line and trailing fence markers (then trims) when the trimmed
text begins with a fence marker, and then returns the inclusive
substring from the first opening brace to the last closing brace when
the latter follows the former, and otherwise the trimmed text
unchanged — i.e. the source's `_extract_json_block` coincides with
the extractor the spec describes, on every input. -/
theorem payload_extractor_matches_spec (raw : String) :
    _extract_json_block raw = String.mk (extractSpec raw.data) := by
  rw [_extract_json_block, extractSpec_eq_core]

/-- C4: if the text-generation collaborator returns an empty string or
raises, `plan_code_generation` returns exactly the default plan
`{components: [{name: "main_module", description: requirement,
priority: 1}], search_queries: [requirement]}`. -/
theorem plan_default_floor (llm : String → Except Unit String)
    (parse : String → Except Unit PyVal) (req pt : String)
    (h : llm (planning_prompt req pt) = .error () ∨
         llm (planning_prompt req pt) = .ok "") :
    plan_code_generation llm parse req pt =
      { components := [PyVal.dict [("name", PyVal.str "main_module"),
                                   ("description", PyVal.str req),
                                   ("priority", PyVal.int 1)]],
        search_queries := [PyVal.str req] } := by
  rcases h with h | h
  · rw [plan_eq_of_error h]
    rfl
  · rw [plan_eq_of_ok h, if_pos rfl]
    rfl

/-- Witness for C4 at a concrete input (collaborator returning the
empty string). -/
theorem plan_default_floor_witness :
    plan_code_generation (fun _ => Except.ok "") (fun _ => Except.error ())
      "build a web api" "python"
      = { components := [PyVal.dict [("name", PyVal.str "main_module"),
                                     ("description", PyVal.str "build a web api"),
                                     ("priority", PyVal.int 1)]],
          search_queries := [PyVal.str "build a web api"] } :=
  plan_default_floor (fun _ => Except.ok "") (fun _ => Except.error ())
    "build a web api" "python" (Or.inr rfl)

/-- C8: on a parseable mapping response, a valid non-empty
`components` list is adopted while an absent / non-list / empty
`search_queries` keeps the default `[requirement]`; symmetrically an
absent / non-list / empty `components` keeps the default
components. -/
theorem plan_partial_repair :
    (∀ (llm : String → Except Unit String) (parse : String → Except Unit PyVal)
        (req pt raw : String) (kvs : List (String × PyVal)) (comps : List PyVal),
      llm (planning_prompt req pt) = .ok raw → raw ≠ "" →
      parse (_extract_json_block raw) = .ok (.dict kvs) →
      dictGet kvs "components" = .list comps → comps ≠ [] →
      notAdoptable (dictGet kvs "search_queries") = true →
      plan_code_generation llm parse req pt
        = { components := comps, search_queries := [PyVal.str req] }) ∧
    (∀ (llm : String → Except Unit String) (parse : String → Except Unit PyVal)
        (req pt raw : String) (kvs : List (String × PyVal)),
      llm (planning_prompt req pt) = .ok raw → raw ≠ "" →
      parse (_extract_json_block raw) = .ok (.dict kvs) →
      notAdoptable (dictGet kvs "components") = true →
      (plan_code_generation llm parse req pt).components
        = (defaultPlan req).components) := by
  constructor
  · intro llm parse req pt raw kvs comps h1 h2 h3 hc hcne hq
    rw [plan_char h1 h2 h3, hc, adoptList_of_notAdoptable hq]
    cases comps with
    | nil => exact absurd rfl hcne
    | cons a l =>
      rw [adoptList_of_cons]
      rfl
  · intro llm parse req pt raw kvs h1 h2 h3 hc
    rw [plan_char h1 h2 h3]
    exact adoptList_of_notAdoptable hc

/-- Witness for C8 at a concrete input: a response with one valid
component and an empty `search_queries` list. -/
theorem plan_partial_repair_witness :
    plan_code_generation (fun _ => Except.ok rawPartialPlan) parsePartialPlan "r" "t"
      = { components := [PyVal.dict
            [("name", PyVal.str "m"), ("description", PyVal.str "d"),
             ("priority", PyVal.int 2)]],
          search_queries := [PyVal.str "r"] } :=
  plan_partial_repair.1 (fun _ => Except.ok rawPartialPlan) parsePartialPlan
    "r" "t" rawPartialPlan parsedPartialPlan
    [PyVal.dict [("name", PyVal.str "m"), ("description", PyVal.str "d"),
                 ("priority", PyVal.int 2)]]
    rfl (by decide) (by rfl) (by rfl) (by simp) (by rfl)

/-- Counterexample to C3: a collaborator response whose `components`
list holds the bare integer `5` (valid JSON, not a Component record)
is adopted as-is, so the returned plan's components are not Component
records — `plan_code_generation` does not validate item shapes. -/
theorem plan_component_shape_cex :
    (plan_code_generation (fun _ => Except.ok rawBadComponents)
        parseBadComponents "r" "t").components = [PyVal.int 5] ∧
    isValidComponent (PyVal.int 5) = false := by
  exact ⟨rfl, rfl⟩

/-- C3 (amended): `plan_code_generation` never fails and always
returns a Plan whose `components` and `search_queries` are non-empty
sequences, and the default plan's components are structurally valid
Component records; adopted lists are taken as-is, so item shapes are
not guaranteed for them. -/
theorem plan_shape_amended (llm : String → Except Unit String)
    (parse : String → Except Unit PyVal) (req pt : String) :
    (plan_code_generation llm parse req pt).components ≠ [] ∧
    (plan_code_generation llm parse req pt).search_queries ≠ [] ∧
    (∀ c ∈ (defaultPlan req).components, isValidComponent c = true) := by
  obtain ⟨h1, h2⟩ := plan_shape llm parse req pt
  refine ⟨h1, h2, ?_⟩
  intro c hc
  simp only [defaultPlan, List.mem_singleton] at hc
  subst hc
  rfl

/-- C6: given a valid chosen index, `find_function_exemplars` returns
the chosen exemplar first, followed by the in-bounds neighbours in the
strict offset order `-1, +1, -2, +2`, stopping once `max_exemplars`
exemplars are collected or the offsets are exhausted — the result is
exactly the exemplars at `claimIndices`, the index schedule the spec
describes. -/
theorem exemplar_neighbor_order (req : String) (cs : List PyVal) (v m : Int)
    (hdict : ∀ s ∈ cs, s.isDict = true) (h0 : 0 ≤ v)
    (hlt : v < (cs.length : Int)) :
    find_function_exemplars (.ok (.dict [("chosen_section_index", .int v)]))
        req cs m
      = .ok ((claimIndices v (cs.length : Int) m).map
          (fun j => exemplar_of cs j.toNat)) := by
  have hne : cs.isEmpty = false := by
    cases cs with
    | nil => simp at hlt; omega
    | cons a l => rfl
  rw [find_function_exemplars_char _ req cs m hne hdict,
    resolve_index_of_valid h0 hlt, Int.toNat_of_nonneg h0]

/-- Witness for C6: five sections, chosen index 2, `max_exemplars` 3 —
the result is the exemplars at source indices `[2, 1, 3]` in that
order. -/
theorem exemplar_neighbor_order_witness :
    find_function_exemplars (.ok (.dict [("chosen_section_index", .int 2)]))
        "r" secs5 3
      = .ok [exemplar_of secs5 2, exemplar_of secs5 1, exemplar_of secs5 3] := by
  have h := exemplar_neighbor_order "r" secs5 2 3
    (by intro s hs; fin_cases hs <;> rfl) (by decide) (by decide)
  rw [h]
  rfl

/-- C7: when the ranking result is unusable (not a mapping, missing or
`None` index, non-integer, or out of range), `find_function_exemplars`
falls back to chosen index 0: the result exists, is front-loaded with
the exemplar at index 0, has at most `max_exemplars` elements (for a
positive `max_exemplars`, the documented regime), and coincides with
the result for an explicit chosen index 0. -/
theorem exemplar_fallback_index (req : String) (cs : List PyVal) (res : PyVal)
    (m : Int) (hne : cs.isEmpty = false) (hdict : ∀ s ∈ cs, s.isDict = true)
    (hbad : invalid_choice res cs.length = true) (hm : 1 ≤ m) :
    ∃ xs, find_function_exemplars (.ok res) req cs m = .ok xs ∧
      xs.head? = some (exemplar_of cs 0) ∧ (xs.length : Int) ≤ m ∧
      find_function_exemplars (.ok res) req cs m
        = find_function_exemplars
            (.ok (.dict [("chosen_section_index", .int 0)])) req cs m := by
  have hn : 0 < cs.length := by
    cases cs with
    | nil => simp at hne
    | cons a l => simp
  rw [find_function_exemplars_char res req cs m hne hdict,
    invalid_choice_resolve hbad]
  simp only [Nat.cast_zero]
  refine ⟨_, rfl, ?_, ?_, ?_⟩
  · simp [claimIndices]
  · have hb := claimNeighbors_length_bound 0 (cs.length : Int) m [-1, 1, -2, 2] 1
    have hb2 : ((claimNeighbors 0 (cs.length : Int) m [-1, 1, -2, 2] 1).length : Int)
        ≤ m - 1 := le_trans hb (by rw [max_eq_right (by omega)])
    simp only [claimIndices, List.map_cons, List.length_cons, List.length_map]
    omega
  · rw [find_function_exemplars_char _ req cs m hne hdict,
      resolve_index_of_valid (le_refl (0 : Int)) (by omega)]
    rfl

/-- Witness for C7: a ranking result that lacks
`chosen_section_index` falls back to index 0. -/
theorem exemplar_fallback_index_witness :
    ∃ xs, find_function_exemplars (.ok (.dict [])) "r" secs5 3 = .ok xs ∧
      xs.head? = some (exemplar_of secs5 0) ∧ (xs.length : Int) ≤ 3 ∧
      find_function_exemplars (.ok (.dict [])) "r" secs5 3
        = find_function_exemplars
            (.ok (.dict [("chosen_section_index", .int 0)])) "r" secs5 3 :=
  exemplar_fallback_index "r" secs5 (.dict []) 3 rfl
    (by intro s hs; fin_cases hs <;> rfl) (by rfl) (by decide)

/-- C10: for a non-empty section list and any integer `max_exemplars`
(zero and negatives included), the primary exemplar at the resolved
chosen index is appended before the limit is checked, so the result
has at least one exemplar and exceeds `max_exemplars` whenever
`max_exemplars` is not positive. -/
theorem exemplar_min_length (req : String) (cs : List PyVal) (res : PyVal)
    (m : Int) (hne : cs.isEmpty = false) (hdict : ∀ s ∈ cs, s.isDict = true) :
    ∃ xs, find_function_exemplars (.ok res) req cs m = .ok xs ∧
      1 ≤ xs.length ∧
      xs.head? = some (exemplar_of cs (resolve_index res cs.length)) ∧
      (m ≤ 0 → m < (xs.length : Int)) := by
  rw [find_function_exemplars_char res req cs m hne hdict]
  refine ⟨_, rfl, ?_, ?_, ?_⟩
  · simp [claimIndices]
  · simp [claimIndices]
  · intro hm0
    simp only [claimIndices, List.map_cons, List.length_cons, List.length_map]
    omega

/-- Witness for C10 at `max_exemplars = 0`: one exemplar is still
returned. -/
theorem exemplar_min_length_witness :
    ∃ xs, find_function_exemplars (.ok PyVal.none) "r" secs5 0 = .ok xs ∧
      1 ≤ xs.length ∧
      xs.head? = some (exemplar_of secs5 (resolve_index PyVal.none secs5.length)) ∧
      ((0 : Int) ≤ 0 → (0 : Int) < (xs.length : Int)) :=
  exemplar_min_length "r" secs5 PyVal.none 0 rfl
    (by intro s hs; fin_cases hs <;> rfl)

/-- C9: if the text-generation collaborator raises, then (provided the
prompt construction is reached and completes, i.e. the first three
exemplars are mappings) `generate_documentation` immediately returns
the bundle whose five fields are all the empty string. -/
theorem docs_error_empty_bundle (llm : String → Except Unit String)
    (parse : String → Except Unit PyVal) (dumps : PyVal → Except Unit String)
    (req pt code : String) (exemplars : List PyVal) (kb : PyVal)
    (hex : ∀ x ∈ exemplars.take 3, x.isDict = true)
    (hraise : ∀ p, llm p = .error ()) :
    generate_documentation llm parse dumps req pt code exemplars kb
      = .ok emptyBundle := by
  obtain ⟨exText, _, hchar⟩ := generate_documentation_char hex
  rw [hchar, hraise]

/-- Witness for C9 at a concrete input. -/
theorem docs_error_empty_bundle_witness :
    generate_documentation (fun _ => Except.error ()) (fun _ => Except.error ())
        (fun _ => Except.error ()) "r" "t" "" [] PyVal.none
      = .ok emptyBundle :=
  docs_error_empty_bundle (fun _ => Except.error ()) (fun _ => Except.error ())
    (fun _ => Except.error ()) "r" "t" "" [] PyVal.none
    (by simp) (fun p => rfl)

/-- Counterexample to C1: a collaborator response of `"{}"` parses to
the empty mapping, which `generate_documentation` returns as-is — the
returned bundle has no `readme` key (nor any other), so the bundle is
not always fully populated. -/
theorem docs_missing_key_cex :
    generate_documentation (fun _ => Except.ok rawEmptyObject) parseEmptyObject
        (fun _ => Except.error ()) "r" "t" "" [] PyVal.none
      = .ok [] ∧
    List.lookup "readme" ([] : List (String × PyVal)) = Option.none :=
  ⟨rfl, rfl⟩

/-- C1 (amended): whenever `generate_documentation` returns, the
returned bundle is either the all-empty five-key bundle (every
fallback path) or exactly the mapping obtained by parsing the block
extracted from the collaborator response — returned as-is, possibly
lacking keys. -/
theorem docs_bundle_amended (llm : String → Except Unit String)
    (parse : String → Except Unit PyVal) (dumps : PyVal → Except Unit String)
    (req pt code : String) (exemplars : List PyVal) (kb : PyVal)
    (b : List (String × PyVal))
    (hok : generate_documentation llm parse dumps req pt code exemplars kb
      = .ok b) :
    b = emptyBundle ∨
    ∃ prompt raw jb kvs, llm prompt = .ok raw ∧ docJsonBlock raw = some jb ∧
      parse jb = .ok (.dict kvs) ∧ b = kvs := by
  unfold generate_documentation at hok
  cases hext : exemplars_text exemplars with
  | error e =>
    rw [hext] at hok
    simp [Bind.bind, Except.bind] at hok
  | ok exText =>
    rw [hext] at hok
    simp only [Bind.bind, Except.bind] at hok
    cases hllm : llm (doc_prompt pt req code exText (tribal_summary dumps kb)) with
    | error e =>
      rw [hllm] at hok
      simp only [Except.ok.injEq] at hok
      exact Or.inl hok.symm
    | ok raw =>
      rw [hllm] at hok
      simp only [Except.ok.injEq] at hok
      unfold doc_from_raw at hok
      cases hjb : docJsonBlock raw with
      | none =>
        rw [hjb] at hok
        exact Or.inl hok.symm
      | some jb =>
        rw [hjb] at hok
        dsimp only at hok
        cases hp : parse jb with
        | error e =>
          rw [hp] at hok
          exact Or.inl hok.symm
        | ok parsed =>
          rw [hp] at hok
          cases parsed with
          | dict kvs =>
            exact Or.inr ⟨_, raw, jb, kvs, hllm, hjb, hp, hok.symm⟩
          | none => exact Or.inl hok.symm
          | bool v => exact Or.inl hok.symm
          | int n => exact Or.inl hok.symm
          | str s => exact Or.inl hok.symm
          | list xs => exact Or.inl hok.symm

/-- Witness for C1 (amended) at a concrete input taking the fallback
path. -/
theorem docs_bundle_amended_witness :
    emptyBundle = emptyBundle ∨
    ∃ prompt raw jb kvs,
      (fun (_ : String) => Except.error (ε := Unit) (α := String) ()) prompt
          = .ok raw ∧
      docJsonBlock raw = some jb ∧
      (fun (_ : String) => Except.error (ε := Unit) (α := PyVal) ()) jb
          = .ok (.dict kvs) ∧
      emptyBundle = kvs :=
  docs_bundle_amended (fun _ => Except.error ()) (fun _ => Except.error ())
    (fun _ => Except.error ()) "r" "t" "" [] PyVal.none emptyBundle rfl

/-- Counterexample to C2: `find_function_exemplars` wraps its ranking
collaborator in no `try`, so when `deep_search` raises on a non-empty
section list the exception propagates to the caller instead of a
value of the documented shape being returned. -/
theorem search_collaborator_raise_cex :
    find_function_exemplars (.error ()) "r" [PyVal.dict []] 3
      = .error () := rfl

/-- C2 (amended): `plan_code_generation` always returns a Plan with
non-empty `components` and `search_queries`, for every collaborator
behaviour including exceptions; `find_function_exemplars` returns a
list (never raises) whenever the ranking collaborator returns a value
— of any shape — and the section records are mappings; and
`generate_documentation` returns a mapping (never raises) for every
collaborator behaviour including exceptions, whenever the (at most
three rendered) exemplar records are mappings. -/
theorem pipelines_total_amended :
    (∀ (llm : String → Except Unit String) (parse : String → Except Unit PyVal)
        (req pt : String),
      (plan_code_generation llm parse req pt).components ≠ [] ∧
      (plan_code_generation llm parse req pt).search_queries ≠ []) ∧
    (∀ (res : PyVal) (req : String) (cs : List PyVal) (m : Int),
      (∀ s ∈ cs, s.isDict = true) →
      ∃ xs, find_function_exemplars (.ok res) req cs m = .ok xs) ∧
    (∀ (llm : String → Except Unit String) (parse : String → Except Unit PyVal)
        (dumps : PyVal → Except Unit String) (req pt code : String)
        (exemplars : List PyVal) (kb : PyVal),
      (∀ x ∈ exemplars.take 3, x.isDict = true) →
      ∃ b, generate_documentation llm parse dumps req pt code exemplars kb
        = .ok b) := by
  refine ⟨fun llm parse req pt => plan_shape llm parse req pt, ?_, ?_⟩
  · intro res req cs m hdict
    cases hcs : cs.isEmpty with
    | true =>
      refine ⟨[], ?_⟩
      unfold find_function_exemplars
      rw [hcs]
      rfl
    | false =>
      exact ⟨_, find_function_exemplars_char res req cs m hcs hdict⟩
  · intro llm parse dumps req pt code exemplars kb hex
    obtain ⟨exText, _, hchar⟩ := generate_documentation_char hex
    rw [hchar]
    cases llm (doc_prompt pt req code exText (tribal_summary dumps kb)) with
    | error e => exact ⟨emptyBundle, rfl⟩
    | ok raw => exact ⟨doc_from_raw parse raw, rfl⟩

/-- Witness for C2 (amended), instantiating each conjunct at a
concrete input (with a raising collaborator where one occurs). -/
theorem pipelines_total_amended_witness :
    ((plan_code_generation (fun _ => Except.error ()) (fun _ => Except.error ())
        "r" "t").components ≠ [] ∧
     (plan_code_generation (fun _ => Except.error ()) (fun _ => Except.error ())
        "r" "t").search_queries ≠ []) ∧
    (∃ xs, find_function_exemplars (.ok PyVal.none) "r" [PyVal.dict []] 3
      = .ok xs) ∧
    (∃ b, generate_documentation (fun _ => Except.error ())
        (fun _ => Except.error ()) (fun _ => Except.error ())
        "r" "t" "" [] PyVal.none = .ok b) :=
  ⟨pipelines_total_amended.1 (fun _ => Except.error ()) (fun _ => Except.error ())
      "r" "t",
   pipelines_total_amended.2.1 PyVal.none "r" [PyVal.dict []] 3
      (by intro s hs; fin_cases hs <;> rfl),
   pipelines_total_amended.2.2 (fun _ => Except.error ())
      (fun _ => Except.error ()) (fun _ => Except.error ()) "r" "t" "" []
      PyVal.none (by simp)⟩
